import Mathlib

/-!
Verification development for the TouchID library: a shallow embedding of
the TypeScript authentication service (src/touchid.ts), the typed event
emitter (src/utils/event-emitter.ts) and the native TTL cache logic
(src/native/touchid.mm), together with theorems settling the behavioural
claims about validation, event emission, caching and error handling.

Conventions of the embedding:
* Wall-clock timestamps and durations carried by events are omitted from
  the event payloads (they are `Date.now()` readings); the fields the
  claims inspect (method, reason, error strings, ttl) are kept.
* Asynchronous control flow is linearised: each public operation returns
  its result together with a trace of observable steps (events emitted,
  the `waitForInit` suspension point, the native `promptTouchID` call).
* JavaScript exceptions are modelled with `Except`: a thrown value is
  either an `Error` object carrying a message or a non-`Error` value
  (for which `err instanceof Error` is false).
* Clock times are integers (epoch milliseconds); the native layer's
  seconds arithmetic (`NSTimeInterval`, `ttl / 1000.0`) is carried out
  exactly in `ℚ`.
-/

namespace TouchIDSpec

/-- Device identity snapshot returned by the native layer
(`data` object built in `touchid.mm`). -/
structure DeviceData where
  biometryType : String
  hardwareUUID : String
  deviceSerial : String
  deviceModel : String
  systemVersion : String
deriving DecidableEq, Repr

/-- `TouchIDOptions` from `src/types`: all three fields optional. -/
structure TouchIDOptions where
  reason : Option String
  method : Option String
  ttl : Option Int
deriving DecidableEq, Repr

/-- `TouchIDResult`: `{success, error?, data?}`. -/
structure TouchIDResult where
  success : Bool
  error : Option String
  data : Option DeviceData
deriving DecidableEq, Repr

/-- `BiometricInfo` record returned by `getBiometricInfo`. -/
structure BiometricInfo where
  biometricsAvailable : Bool
  biometryType : String
  deviceSerial : String
  deviceModel : String
  systemVersion : String
  hardwareUUID : String
deriving DecidableEq, Repr

/-- Events emitted through the event emitter, with the payload fields the
claims inspect (timestamps and measured durations omitted). -/
inductive Event where
  | authStart (method reason : String)
  | authSuccess (method : String)
  | authFailure (method : String) (error : String)
  | authCancel (method : String)
  | deviceLockout (reason : String)
  | deviceAvailable (biometryType : String)
  | deviceUnavailable (reason : String)
  | cacheCreated (ttl : Int)
  | cacheUsed (remainingTtl : Int)
  | cacheExpired (originalTtl : Int)
  | initStart
  | initComplete
  | initError (error : String)
deriving DecidableEq, Repr

/-- Observable steps of a public operation, in execution order:
an event emission, the `waitForInit` await, or the call into the native
`promptTouchID` function with its argument object. -/
inductive Step where
  | emit (e : Event)
  | awaitInit
  | callProvider (reason method : String) (ttl : Int)
deriving DecidableEq, Repr

/-- A JavaScript thrown/rejected value: an `Error` object with a message,
or any non-`Error` value (a rejected string, etc.). -/
inductive ThrownValue where
  | errorObj (msg : String)
  | nonError (value : String)
deriving DecidableEq, Repr

/-- `error instanceof Error ? error.message : 'Unknown error'`
(the pattern used in every catch block of `touchid.ts`). -/
def thrownMessage : ThrownValue → String
  | .errorObj m => m
  | .nonError _ => "Unknown error"

/-- State of the service as seen by a public call: platform flag and
whether the native module (and each of its three functions) is present
once initialization has completed. -/
structure ServiceState where
  isMac : Bool
  nativeModule : Bool
  canPromptFn : Bool
  promptFn : Bool
  infoFn : Bool
deriving DecidableEq, Repr

/-- JavaScript `s || d` on an optional string: `undefined` and the empty
string are falsy. -/
def jsOrStr (o : Option String) (d : String) : String :=
  match o with
  | some s => if s = "" then d else s
  | none => d

/-- JavaScript `n || d` on an optional number: `undefined` and `0` are
falsy. -/
def jsOrInt (o : Option Int) (d : Int) : Int :=
  match o with
  | some n => if n = 0 then d else n
  | none => d

/-- Whether `sub` starts the list `s`. -/
def startsWithList : List Char → List Char → Bool
  | [], _ => true
  | _ :: _, [] => false
  | a :: as, b :: bs => a == b && startsWithList as bs

/-- Whether `sub` occurs contiguously inside `s`. -/
def containsList (sub : List Char) : List Char → Bool
  | [] => startsWithList sub []
  | a :: rest => startsWithList sub (a :: rest) || containsList sub rest

/-- JavaScript `String.prototype.includes`. -/
def includesStr (s sub : String) : Bool :=
  containsList sub.toList s.toList

/-- Error strings of the `TouchIDError` enum. -/
def errNotAvailable : String := "Touch ID not available"

def errNotEnrolled : String := "No Touch ID enrolled"

def errLockout : String := "Touch ID is locked out"

def errUserCancel : String := "User cancelled authentication"

def errPasscodeNotSet : String := "Passcode not set"

def errNotInteractive : String := "Not interactive"

/-- Error string used when the native module failed to load. -/
def errNativeModule : String := "Touch ID native module not available"

/-- Validation message for an out-of-range ttl. -/
def msgTtlRange : String := "TTL must be between 1000 and 300000 milliseconds"

/-- Validation message for a blank reason. -/
def msgReasonEmpty : String := "Reason cannot be empty"

/-- Result record of `validateOptions`. -/
structure ValidationResult where
  valid : Bool
  error : Option String
deriving DecidableEq, Repr

/-- Test of `options.ttl !== undefined && (options.ttl < 1000 || options.ttl > 300000)`. -/
def ttlOutOfRange (o : Option Int) : Bool :=
  match o with
  | some t => decide (t < 1000) || decide (t > 300000)
  | none => false

/-- Whitespace test used by trimming (space, tab, carriage return, line
feed). -/
def isWsChar (c : Char) : Bool :=
  c == ' ' || c == '\t' || c == '\r' || c == '\n'

/-- Drop leading whitespace characters. -/
def dropWhileWs : List Char → List Char
  | [] => []
  | c :: rest => if isWsChar c then dropWhileWs rest else c :: rest

/-- JavaScript `String.prototype.trim`: strip whitespace from both
ends. -/
def jsTrim (s : String) : String :=
  String.mk ((dropWhileWs ((dropWhileWs s.toList).reverse)).reverse)

/-- Test of `options.reason !== undefined && options.reason.trim().length === 0`. -/
def reasonBlank (o : Option String) : Bool :=
  match o with
  | some r => decide ((jsTrim r).length = 0)
  | none => false

/-- `validateOptions` from `touchid.ts`: ttl (when supplied) must lie in
[1000, 300000]; reason (when supplied) must be non-empty after trim. -/
def validateOptions (options : TouchIDOptions) : ValidationResult :=
  if ttlOutOfRange options.ttl then ⟨false, some msgTtlRange⟩
  else if reasonBlank options.reason then ⟨false, some msgReasonEmpty⟩
  else ⟨true, none⟩

/-- Response of the native `promptTouchID` promise as seen by the
TypeScript layer: a resolved result object `{success, error?, data?}` or
a rejection carrying the thrown value. -/
inductive ProviderResp where
  | resolve (success : Bool) (error : Option String) (data : Option DeviceData)
  | reject (v : ThrownValue)
deriving DecidableEq, Repr

/-- The argument object passed to the native `promptTouchID`. -/
structure PromptArgs where
  reason : String
  method : String
  ttl : Int
deriving DecidableEq, Repr

/-- Error classification of the catch block of `authenticate`: substring
matching on the error message, plus the extra `device:lockout` /
`authentication:cancel` emissions performed during classification. -/
def classifyCatch (method msg : String) : String × List Step :=
  if includesStr msg "not available" then (errNotAvailable, [])
  else if includesStr msg "not enrolled" then (errNotEnrolled, [])
  else if includesStr msg "locked out" then
    (errLockout, [Step.emit (.deviceLockout errLockout)])
  else if includesStr msg "cancelled" || includesStr msg "canceled" then
    (errUserCancel, [Step.emit (.authCancel method)])
  else if includesStr msg "passcode not set" then (errPasscodeNotSet, [])
  else if includesStr msg "not interactive" then (errNotInteractive, [])
  else (msg, [])

/-- The `try` block of `authenticate`: checks `promptTouchID` is a
function (throwing an `Error` otherwise), calls the provider, and handles
the resolved result object exactly as the source does — including the
source's unconditional `return { success: true, data: result.data }`
after the `result.success` branch. Errors propagate to the catch. -/
def authTry {σ : Type} (st : ServiceState)
    (provider : PromptArgs → σ → σ × ProviderResp) (s0 : σ)
    (reason method : String) (ttl : Int) (t1 : List Step) :
    Except (ThrownValue × σ × List Step) (TouchIDResult × List Step × σ) :=
  if !st.promptFn then
    .error (.errorObj "promptTouchID function not available", s0, t1)
  else
    let pr := provider ⟨reason, method, ttl⟩ s0
    let t2 := t1 ++ [Step.callProvider reason method ttl]
    match pr.2 with
    | .reject v => .error (v, pr.1, t2)
    | .resolve rSuccess rError rData =>
      if rSuccess then
        let t3 := if method = "cached" then
          t2 ++ [Step.emit (.cacheCreated ttl)] else t2
        .ok (⟨true, none, rData⟩, t3 ++ [Step.emit (.authSuccess method)], pr.1)
      else
        .ok (⟨true, none, rData⟩,
          t2 ++ [Step.emit (.authFailure method (jsOrStr rError "Unknown error"))], pr.1)

/-- `TouchIDService.authenticate`, parametrised by the provider (the
native `promptTouchID`, abstracted as a state-passing function so the
combined TypeScript-plus-native system can be formed). The returned
`Except` records whether an exception escapes the method; every internal
throw is routed through the embedded catch block. -/
def authenticateE {σ : Type} (st : ServiceState)
    (provider : PromptArgs → σ → σ × ProviderResp) (s0 : σ)
    (options : TouchIDOptions) :
    Except ThrownValue (TouchIDResult × List Step × σ) :=
  let method := jsOrStr options.method "direct"
  let reason := jsOrStr options.reason "Authenticate with Touch ID"
  let t0 : List Step := [Step.emit (.authStart method reason)]
  if !st.isMac then
    .ok (⟨false, some errNotAvailable, none⟩,
      t0 ++ [Step.emit (.authFailure method errNotAvailable)], s0)
  else
    let validation := validateOptions options
    if !validation.valid then
      let msg := validation.error.getD ""
      .ok (⟨false, some msg, none⟩,
        t0 ++ [Step.emit (.authFailure method msg)], s0)
    else
      let t1 := t0 ++ [Step.awaitInit]
      if !st.nativeModule then
        .ok (⟨false, some errNativeModule, none⟩,
          t1 ++ [Step.emit (.authFailure method errNativeModule)], s0)
      else
        let ttl := jsOrInt options.ttl 30000
        match authTry st provider s0 reason method ttl t1 with
        | .ok out => .ok out
        | .error (v, s1, t2) =>
          let errorMessage := thrownMessage v
          match classifyCatch method errorMessage with
          | (mappedError, extra) =>
            .ok (⟨false, some mappedError, none⟩,
              t2 ++ extra ++ [Step.emit (.authFailure method mappedError)], s1)

/-- Behaviour of the native `canPromptTouchID` call. -/
inductive AvailBehavior where
  | resolve (b : Bool)
  | throwV (v : ThrownValue)
deriving DecidableEq, Repr

/-- The `try` block of `isAvailable`. -/
def isAvailableTry (st : ServiceState) (b : AvailBehavior) (t1 : List Step) :
    Except (ThrownValue × List Step) (Bool × List Step) :=
  if st.canPromptFn then
    match b with
    | .resolve true => .ok (true, t1 ++ [Step.emit (.deviceAvailable "TouchID")])
    | .resolve false =>
      .ok (false, t1 ++ [Step.emit (.deviceUnavailable "Touch ID not available on this device")])
    | .throwV v => .error (v, t1)
  else
    .error (.errorObj "canPromptTouchID function not available", t1)

/-- `TouchIDService.isAvailable`. -/
def isAvailableE (st : ServiceState) (b : AvailBehavior) :
    Except ThrownValue (Bool × List Step) :=
  if !st.isMac then
    .ok (false, [Step.emit (.deviceUnavailable "Touch ID is only available on macOS")])
  else
    let t1 : List Step := [Step.awaitInit]
    if !st.nativeModule then
      .ok (false, t1 ++ [Step.emit (.deviceUnavailable errNativeModule)])
    else
      match isAvailableTry st b t1 with
      | .ok r => .ok r
      | .error (v, t2) =>
        .ok (false, t2 ++ [Step.emit (.deviceUnavailable (thrownMessage v))])

/-- Behaviour of the native `getBiometricInfo` call. -/
inductive InfoBehavior where
  | resolve (i : BiometricInfo)
  | throwV (v : ThrownValue)
deriving DecidableEq, Repr

/-- `BiometricInfo` returned on a non-macOS platform. -/
def unsupportedInfo : BiometricInfo :=
  ⟨false, "Unsupported", "Unsupported Platform", "Unsupported Platform",
   "Unsupported Platform", "Unsupported Platform"⟩

/-- `BiometricInfo` returned when the native module is absent. -/
def emptyInfo : BiometricInfo := ⟨false, "None", "", "", "", ""⟩

/-- `BiometricInfo` returned by the catch block. -/
def errorInfo : BiometricInfo := ⟨false, "None", "Error", "Error", "Error", "Error"⟩

/-- `TouchIDService.getBiometricInfo`. -/
def getBiometricInfoE (st : ServiceState) (b : InfoBehavior) :
    Except ThrownValue (BiometricInfo × List Step) :=
  if !st.isMac then
    .ok (unsupportedInfo, [])
  else
    let t1 : List Step := [Step.awaitInit]
    if !st.nativeModule then
      .ok (emptyInfo, t1)
    else
      match (if st.infoFn then
          match b with
          | .resolve i => Except.ok (i, t1)
          | .throwV v => Except.error v
        else Except.error (ThrownValue.errorObj "getBiometricInfo function not available")) with
      | .ok r => .ok r
      | .error _ => .ok (errorInfo, t1)

/-! ### Native TTL cache (`src/native/touchid.mm`)

The globals `lastAuthTime`, `isCached`, `cacheTTL`.  `NSDate` values are
modelled at millisecond granularity as integers; `NSTimeInterval` seconds
arithmetic is carried out exactly in `ℚ`. -/

/-- The native module's global cache state: `lastAuthTime` (epoch
milliseconds, `nil` when absent), `isCached`, and `cacheTTLms` — the
`cacheTTL` seconds value scaled by 1000.  Every `NSTimeInterval` this
code manipulates is an integer number of milliseconds divided by 1000
(`cacheTTL = ttl / 1000.0` with integer `ttl`, and date differences at
millisecond granularity), so the scaled integer representation is exact,
and `secLt_iff_ms` below shows the source's seconds comparisons coincide
with the integer comparisons used here. -/
structure NativeCache where
  lastAuthTime : Option Int
  isCached : Bool
  cacheTTLms : Int
deriving DecidableEq, Repr

/-- `[[NSDate date] timeIntervalSinceDate:lastAuthTime]`, scaled by
1000: the elapsed time in milliseconds. -/
def timeSinceMs (now last : Int) : Int :=
  now - last

/-- The cache-hit test of `PromptTouchID`: an entry exists
(`lastAuthTime && isCached`) and `timeSinceLastAuth < cacheTTL`
(both sides scaled by 1000). -/
def cacheIsValid (c : NativeCache) (now : Int) : Bool :=
  match c.lastAuthTime with
  | some t => c.isCached && decide (timeSinceMs now t < c.cacheTTLms)
  | none => false

/-- The success-callback cache update of `PromptTouchID`:
`lastAuthTime = [NSDate date]; isCached = YES;` (followed by
`saveCache()`, whose durable copy the in-process state mirrors). -/
def cacheRecord (c : NativeCache) (now : Int) : NativeCache :=
  { c with lastAuthTime := some now, isCached := true }

/-- `loadCache()`: restores the persisted entry and clears it when
`timeSinceLastAuth >= cacheTTL` at load time. -/
def loadCache (c : NativeCache) (now : Int) : NativeCache :=
  match c.lastAuthTime with
  | some t =>
    if c.isCached ∧ timeSinceMs now t ≥ c.cacheTTLms then
      { c with isCached := false, lastAuthTime := none }
    else c
  | none => c

/-- Outcome of the native promise: resolution (always with
`success: true` and a device-data object) or rejection with the
`localizedDescription` string. -/
inductive NativeOutcome where
  | resolve (data : DeviceData)
  | reject (msg : String)
deriving DecidableEq, Repr

/-- Reply of `LAContext evaluatePolicy`. -/
inductive EvalOutcome where
  | success
  | failure (errMsg : String)
deriving DecidableEq, Repr

/-- The cache and promise logic of the native `PromptTouchID`: load the
persisted cache, set `cacheTTL` from the request when `method == "cached"`,
take the cache-hit fast path (resolving without prompting), otherwise
evaluate the policy, recording the cache on a cached-method success and
rejecting with the error description on failure. -/
def promptTouchID (c0 : NativeCache) (now : Int) (args : PromptArgs)
    (eval : EvalOutcome) (dev : DeviceData) : NativeCache × NativeOutcome :=
  let c1 := loadCache c0 now
  let c2 := if args.method = "cached" then
      { c1 with cacheTTLms := args.ttl } else c1
  let useCache := args.method = "cached" && cacheIsValid c2 now
  let c3 := if args.method = "cached" && !useCache
      && c2.lastAuthTime.isSome && c2.isCached then
      { c2 with isCached := false } else c2
  if useCache then (c3, .resolve dev)
  else
    match eval with
    | .success =>
      let c4 := if args.method = "cached" then cacheRecord c3 now else c3
      (c4, .resolve dev)
    | .failure msg => (c3, .reject msg)

/-- The composed provider seen by `authenticateE`: the native
`promptTouchID` with its global cache threaded through (paired with the
current clock reading).  A native rejection carries a plain string, which
is not an `instanceof Error` on the TypeScript side. -/
def nativeProvider (eval : EvalOutcome) (dev : DeviceData) :
    PromptArgs → NativeCache × Int → (NativeCache × Int) × ProviderResp :=
  fun args s =>
    match promptTouchID s.1 s.2 args eval dev with
    | (c', .resolve d) => ((c', s.2), .resolve true none (some d))
    | (c', .reject m) => ((c', s.2), .reject (.nonError m))

/-! ### Typed event emitter (`src/utils/event-emitter.ts`)

Handlers are identified by numbers; a handler's behaviour when invoked
(registry operations it performs, whether it throws) is given by a
semantic function `sem`, so re-entrant handlers can be expressed. -/

/-- Handler identity (the function reference used by `off`'s
`findIndex`). -/
abbrev HId := Nat

/-- Event kind (the `TouchIDEventType` string). -/
abbrev Kind := String

/-- A registry entry: `{handler, once}`. -/
structure Listener where
  handler : HId
  once : Bool
deriving DecidableEq, Repr

/-- The `Map<TouchIDEventType, EventListener[]>`, as an insertion-ordered
association list (JavaScript `Map` iteration order). -/
abbrev Registry := List (Kind × List Listener)

/-- `Map.get`. -/
def lookupK : Registry → Kind → Option (List Listener)
  | [], _ => none
  | (k', v) :: rest, k => if k' = k then some v else lookupK rest k

/-- `Map.set`: updates an existing key in place, appends a new key. -/
def setK : Registry → Kind → List Listener → Registry
  | [], k, v => [(k, v)]
  | (k', v') :: rest, k, v =>
    if k' = k then (k', v) :: rest else (k', v') :: setK rest k v

/-- `Map.delete`. -/
def deleteK : Registry → Kind → Registry
  | [], _ => []
  | (k', v) :: rest, k =>
    if k' = k then deleteK rest k else (k', v) :: deleteK rest k

/-- A registry operation a handler may perform when invoked. -/
inductive Op where
  | opOn (k : Kind) (h : HId)
  | opOnce (k : Kind) (h : HId)
  | opOff (k : Kind) (h : HId)
  | opRemoveAll (k : Option Kind)
deriving DecidableEq, Repr

/-- Behaviour of a handler when invoked: the registry operations it
performs, and whether it then throws. -/
structure Effect where
  ops : List Op
  throws : Bool
deriving DecidableEq, Repr

/-- `TouchIDEventEmitterImpl.on`: get-or-create the kind's array and push
a persistent entry. -/
def emOn (r : Registry) (k : Kind) (h : HId) : Registry :=
  setK r k (((lookupK r k).getD []) ++ [⟨h, false⟩])

/-- `TouchIDEventEmitterImpl.once`: get-or-create and push a one-shot
entry. -/
def emOnce (r : Registry) (k : Kind) (h : HId) : Registry :=
  setK r k (((lookupK r k).getD []) ++ [⟨h, true⟩])

/-- Remove the first entry whose handler matches (`findIndex` +
`splice`). -/
def removeFirstHandler : List Listener → HId → List Listener
  | [], _ => []
  | l :: rest, h => if l.handler = h then rest else l :: removeFirstHandler rest h

/-- `TouchIDEventEmitterImpl.off`: no-op when the kind is unregistered;
otherwise remove the first matching entry and delete the kind's registry
entry once the array is empty. -/
def emOff (r : Registry) (k : Kind) (h : HId) : Registry :=
  match lookupK r k with
  | none => r
  | some ls =>
    let ls' := removeFirstHandler ls h
    if ls'.length = 0 then deleteK r k else setK r k ls'

/-- `TouchIDEventEmitterImpl.removeAllListeners`. -/
def emRemoveAll (r : Registry) : Option Kind → Registry
  | some k => deleteK r k
  | none => []

/-- Interpret one registry operation performed by a handler. -/
def applyOp (r : Registry) : Op → Registry
  | .opOn k h => emOn r k h
  | .opOnce k h => emOnce r k h
  | .opOff k h => emOff r k h
  | .opRemoveAll ko => emRemoveAll r ko

/-- Invoke a handler: perform its registry operations, then report
whether it threw (the thrown error, if any, to be caught by `emit`). -/
def runHandler (sem : HId → Effect) (r : Registry) (h : HId) :
    Registry × Except String Unit :=
  (((sem h).ops).foldl applyOp r,
   if (sem h).throws then .error "handler error" else .ok ())

/-- One iteration of `emit`'s dispatch loop: invoke the listener's
handler inside the `try`, catch (and merely log) anything it throws,
and record the invocation. -/
def dispatchStep (sem : HId → Effect) (acc : Registry × List HId)
    (l : Listener) : Registry × List HId :=
  match runHandler sem acc.1 l.handler with
  | (r', .ok _) => (r', acc.2 ++ [l.handler])
  | (r', .error _) => (r', acc.2 ++ [l.handler])

/-- `TouchIDEventEmitterImpl.emit`: early return when no listeners; take
a snapshot, prune one-shot entries from the registry before dispatch,
then invoke every snapshot entry in order, catching (and merely logging)
anything a handler throws.  Returns the final registry and the list of
handlers invoked, in invocation order. -/
def emit (sem : HId → Effect) (r : Registry) (k : Kind) :
    Registry × List HId :=
  match lookupK r k with
  | none => (r, [])
  | some ls =>
    if ls.length = 0 then (r, [])
    else
      let remaining := ls.filter (fun l => !l.once)
      let r1 := setK r k remaining
      ls.foldl (dispatchStep sem) (r1, [])

/-- `TouchIDEventEmitterImpl.listenerCount`. -/
def listenerCount (r : Registry) (k : Kind) : Nat :=
  ((lookupK r k).getD []).length

/-- `TouchIDEventEmitterImpl.eventNames`. -/
def eventNames (r : Registry) : List Kind :=
  r.map (fun p => p.1)

/-- The handler identities currently registered for a kind. -/
def handlersAt (r : Registry) (k : Kind) : List HId :=
  ((lookupK r k).getD []).map (fun l => l.handler)

/-! ### Trace predicates and concrete instances used by the theorems -/

/-- Whether a step is a `cache:used` emission. -/
def isCacheUsedStep : Step → Bool
  | .emit (.cacheUsed _) => true
  | _ => false

/-- Whether a step is any `cache:*` emission. -/
def isCacheStep : Step → Bool
  | .emit (.cacheCreated _) => true
  | .emit (.cacheUsed _) => true
  | .emit (.cacheExpired _) => true
  | _ => false

/-- Whether a step is the call into the native provider. -/
def isCallStep : Step → Bool
  | .callProvider _ _ _ => true
  | _ => false

/-- A fully functional service state: macOS, module loaded, all three
native functions present. -/
def stReady : ServiceState := ⟨true, true, true, true, true⟩

/-- A non-macOS service state. -/
def stNonMac : ServiceState := ⟨false, false, false, false, false⟩

/-- macOS with the native module missing (load failed). -/
def stNoModule : ServiceState := ⟨true, false, false, false, false⟩

/-- `authenticate({method:'direct'})`. -/
def optsDirect : TouchIDOptions := ⟨none, some "direct", none⟩

/-- `authenticate({reason:'Cached authentication', method:'cached', ttl:30000})`. -/
def optsCached : TouchIDOptions := ⟨some "Cached authentication", some "cached", some 30000⟩

/-- A sample device identity. -/
def devDemo : DeviceData := ⟨"TouchID", "uuid", "serial", "model", "14.0"⟩

/-- The native globals at first use: no entry, default 30-second ttl. -/
def emptyCache : NativeCache := ⟨none, false, 30000⟩

/-- The native cache after a successful cached authentication at time
1000 with ttl 30000. -/
def cacheAfterFirst : NativeCache := ⟨some 1000, true, 30000⟩

/-- A provider that resolves with `{success: false, error: '...'}`. -/
def provResolveFail : PromptArgs → Unit → Unit × ProviderResp :=
  fun _ s => (s, .resolve false (some "Authentication failed") none)

/-- Handler semantics where every handler is pure. -/
def semPure : HId → Effect := fun _ => ⟨[], false⟩

/-- Handler semantics where handler 0 re-registers itself via `once`
during its own invocation. -/
def semSelfReadd : HId → Effect :=
  fun h => if h = 0 then ⟨[Op.opOnce "initialization:complete" 0], false⟩ else ⟨[], false⟩

/-- Handler semantics where handler 0 throws. -/
def semThrowing : HId → Effect :=
  fun h => if h = 0 then ⟨[], true⟩ else ⟨[], false⟩

/-- A registry with a one-shot handler 0 followed by a persistent
handler 1. -/
def regOnceThenOn : Registry := [("initialization:complete", [⟨0, true⟩, ⟨1, false⟩])]

/-- A registry with two persistent handlers for the failure kind. -/
def regTwoOn : Registry := [("authentication:failure", [⟨0, false⟩, ⟨1, false⟩])]

/-- A registry whose listeners for the kind are all one-shot. -/
def regAllOnce : Registry := [("initialization:complete", [⟨0, true⟩, ⟨1, true⟩])]

/-! ## Theorems -/

/-- Justification of the scaled-integer representation of
`NSTimeInterval` values: comparing two quantities of the form
`ms / 1000` seconds is the same as comparing the millisecond integers,
so `cacheIsValid` and `loadCache` perform exactly the comparisons of
the source. -/
theorem secLt_iff_ms (a b : Int) : (a : ℚ) / 1000 < (b : ℚ) / 1000 ↔ a < b := by
  rw [div_lt_div_iff_of_pos_right (by norm_num : (0 : ℚ) < 1000)]
  exact_mod_cast Iff.rfl

/-- Claim C1.  When the provider's promise resolves with
`{success: false, error: 'Authentication failed'}`, `authenticate`
emits `authentication:failure` with that error — yet returns
`{success: true, data: result.data}`: the `return` after the
`result.success` branch is unconditional, so the returned result
contradicts both the claim and the failure event the same branch just
emitted. -/
theorem C1_provider_resolved_failure_returns_success :
    authenticateE stReady provResolveFail () optsDirect =
      Except.ok (⟨true, none, none⟩,
        [Step.emit (.authStart "direct" "Authenticate with Touch ID"),
         Step.awaitInit,
         Step.callProvider "Authenticate with Touch ID" "direct" 30000,
         Step.emit (.authFailure "direct" "Authentication failed")], ()) := by
  rfl

/-- Claim C2.  Two `authenticate({method:'cached', ttl:30000})` calls
1000 ms apart, the first biometric prompt succeeding: the second call is
served from the native cache (the eval outcome passed for it is a
failure, demonstrating no prompt is evaluated), yet its event trace is
`authentication:start`, `cache:created{30000}`,
`authentication:success` — it emits `cache:created` on the cache hit and
never emits `cache:used`. -/
theorem C2_cache_hit_emits_created_not_used :
    authenticateE stReady (nativeProvider .success devDemo)
        (emptyCache, 1000) optsCached =
      Except.ok (⟨true, none, some devDemo⟩,
        [Step.emit (.authStart "cached" "Cached authentication"),
         Step.awaitInit,
         Step.callProvider "Cached authentication" "cached" 30000,
         Step.emit (.cacheCreated 30000),
         Step.emit (.authSuccess "cached")], (cacheAfterFirst, 1000)) ∧
    authenticateE stReady (nativeProvider (.failure "prompt not reached") devDemo)
        (cacheAfterFirst, 2000) optsCached =
      Except.ok (⟨true, none, some devDemo⟩,
        [Step.emit (.authStart "cached" "Cached authentication"),
         Step.awaitInit,
         Step.callProvider "Cached authentication" "cached" 30000,
         Step.emit (.cacheCreated 30000),
         Step.emit (.authSuccess "cached")], (cacheAfterFirst, 2000)) ∧
    ([Step.emit (.authStart "cached" "Cached authentication"),
      Step.awaitInit,
      Step.callProvider "Cached authentication" "cached" 30000,
      Step.emit (.cacheCreated 30000),
      Step.emit (.authSuccess "cached")].all fun s => !isCacheUsedStep s) = true :=
  ⟨by rfl, by rfl, by rfl⟩

/-- Claim C3, counterexample.  On a non-macOS platform,
`authenticate({ttl: 500})` (ttl below the 1000 minimum) returns a
failure whose error is `'Touch ID not available'` — the platform check
precedes validation, so the error is not the validation message the
claim requires (though the call still fails and never reaches the
provider). -/
theorem C3_counterexample_nonmac_ttl :
    authenticateE stNonMac provResolveFail () ⟨none, none, some 500⟩ =
      Except.ok (⟨false, some errNotAvailable, none⟩,
        [Step.emit (.authStart "direct" "Authenticate with Touch ID"),
         Step.emit (.authFailure "direct" errNotAvailable)], ()) ∧
    errNotAvailable ≠ msgTtlRange := by
  exact ⟨rfl, by decide⟩

/-- Claim C4, counterexample.  On macOS, `authenticate({ttl: 500})`
called while the service may still be initializing returns a validation
failure without ever reaching the `waitForInit` suspension point: the
trace contains no `awaitInit` step, so an authentication outcome is
reported before initialization has finished. -/
theorem C4_counterexample_validation_skips_wait :
    authenticateE stReady provResolveFail () ⟨none, none, some 500⟩ =
      Except.ok (⟨false, some msgTtlRange, none⟩,
        [Step.emit (.authStart "direct" "Authenticate with Touch ID"),
         Step.emit (.authFailure "direct" msgTtlRange)], ()) ∧
    Step.awaitInit ∉
      [Step.emit (Event.authStart "direct" "Authenticate with Touch ID"),
       Step.emit (Event.authFailure "direct" msgTtlRange)] := by
  exact ⟨rfl, by decide⟩

/-- Claim C9, counterexample.  In the state where macOS is present but
the native module failed to load, availability is false
(`isAvailable` returns false), yet `authenticate({method:'direct'})`
returns the error `'Touch ID native module not available'`, not the
generic `'Touch ID not available'` the claim requires. -/
theorem C9_counterexample_module_missing_error :
    isAvailableE stNoModule (.resolve true) =
      Except.ok (false,
        [Step.awaitInit, Step.emit (.deviceUnavailable errNativeModule)]) ∧
    authenticateE stNoModule provResolveFail () optsDirect =
      Except.ok (⟨false, some errNativeModule, none⟩,
        [Step.emit (.authStart "direct" "Authenticate with Touch ID"),
         Step.awaitInit,
         Step.emit (.authFailure "direct" errNativeModule)], ()) ∧
    errNativeModule ≠ errNotAvailable := by
  exact ⟨rfl, rfl, by decide⟩

/-- Invalid options make `validateOptions` fail with a message. -/
theorem validateOptions_invalid_of (opts : TouchIDOptions)
    (h : ttlOutOfRange opts.ttl = true ∨ reasonBlank opts.reason = true) :
    (validateOptions opts).valid = false ∧
      ∃ msg, (validateOptions opts).error = some msg := by
  unfold validateOptions
  rcases h with h | h
  · simp [h]
  · by_cases ht : ttlOutOfRange opts.ttl = true <;> simp [ht, h]

/-- Shape of `authenticate` on macOS when validation fails: failure with
the validation message, `authentication:failure` emitted, and neither
`waitForInit` nor the provider reached. -/
theorem authenticateE_validation_fail {σ : Type} (st : ServiceState)
    (provider : PromptArgs → σ → σ × ProviderResp) (s : σ)
    (opts : TouchIDOptions) (hmac : st.isMac = true)
    (hval : (validateOptions opts).valid = false) :
    authenticateE st provider s opts =
      Except.ok (⟨false, some ((validateOptions opts).error.getD ""), none⟩,
        [Step.emit (.authStart (jsOrStr opts.method "direct")
            (jsOrStr opts.reason "Authenticate with Touch ID")),
         Step.emit (.authFailure (jsOrStr opts.method "direct")
            ((validateOptions opts).error.getD ""))], s) := by
  unfold authenticateE
  simp [hmac, hval]

/-- Shape of `authenticate` on a non-macOS platform: immediate failure
with the `NOT_AVAILABLE` error. -/
theorem authenticateE_nonmac {σ : Type} (st : ServiceState)
    (provider : PromptArgs → σ → σ × ProviderResp) (s : σ)
    (opts : TouchIDOptions) (hmac : st.isMac = false) :
    authenticateE st provider s opts =
      Except.ok (⟨false, some errNotAvailable, none⟩,
        [Step.emit (.authStart (jsOrStr opts.method "direct")
            (jsOrStr opts.reason "Authenticate with Touch ID")),
         Step.emit (.authFailure (jsOrStr opts.method "direct") errNotAvailable)], s) := by
  unfold authenticateE
  simp [hmac]

/-- Claim C3 (amended).  A call whose options carry an out-of-range ttl
or a blank reason never invokes the provider and always returns a
failure; on macOS — where the call reaches validation — the failure's
error is exactly the validation message and `authentication:failure`
carries it.  (On non-macOS the platform check fires first and the error
is `'Touch ID not available'` instead.) -/
theorem C3_amended_validation_before_provider {σ : Type} (st : ServiceState)
    (provider : PromptArgs → σ → σ × ProviderResp) (s : σ)
    (opts : TouchIDOptions)
    (hbad : ttlOutOfRange opts.ttl = true ∨ reasonBlank opts.reason = true) :
    (∃ msg, (validateOptions opts).error = some msg ∧
      (st.isMac = true →
        authenticateE st provider s opts =
          Except.ok (⟨false, some msg, none⟩,
            [Step.emit (.authStart (jsOrStr opts.method "direct")
                (jsOrStr opts.reason "Authenticate with Touch ID")),
             Step.emit (.authFailure (jsOrStr opts.method "direct") msg)], s))) ∧
    (∀ res tr s', authenticateE st provider s opts = Except.ok (res, tr, s') →
      res.success = false ∧ (tr.all fun x => !isCallStep x) = true) := by
  obtain ⟨hval, msg, hmsg⟩ := validateOptions_invalid_of opts hbad
  constructor
  · refine ⟨msg, hmsg, fun hmac => ?_⟩
    rw [authenticateE_validation_fail st provider s opts hmac hval, hmsg]
    simp
  · intro res tr s' heq
    by_cases hmac : st.isMac = true
    · rw [authenticateE_validation_fail st provider s opts hmac hval, hmsg] at heq
      obtain ⟨h1, h2, h3⟩ := by
        simpa using heq
      subst h1 h2
      simp [isCallStep]
    · rw [authenticateE_nonmac st provider s opts (by simpa using hmac)] at heq
      obtain ⟨h1, h2, h3⟩ := by
        simpa using heq
      subst h1 h2
      simp [isCallStep]

/-- Every trace produced by the `try` block of `authenticate` extends
the trace accumulated before it (which ends at the `waitForInit`
suspension point). -/
theorem authTry_trace_extends {σ : Type} (st : ServiceState)
    (provider : PromptArgs → σ → σ × ProviderResp) (s0 : σ)
    (reason method : String) (ttl : Int) (t1 : List Step) :
    (∀ res tr s1, authTry st provider s0 reason method ttl t1 =
        Except.ok (res, tr, s1) → t1 <+: tr) ∧
    (∀ v s1 t2, authTry st provider s0 reason method ttl t1 =
        Except.error (v, s1, t2) → t1 <+: t2) := by
  unfold authTry
  by_cases hp : st.promptFn = true
  · rcases hpr : provider ⟨reason, method, ttl⟩ s0 with ⟨s2, resp⟩
    simp only [hp, Bool.not_true, Bool.false_eq_true, if_false, hpr]
    cases resp with
    | reject v =>
      refine ⟨fun res tr s1 h => ?_, fun v' s1' t2' h => ?_⟩
      · simp at h
      · simp only [Except.error.injEq, Prod.mk.injEq] at h
        rw [← h.2.2]
        exact List.prefix_append t1 _
    | resolve rS rE rD =>
      refine ⟨fun res tr s1 h => ?_, fun v' s1' t2' h => ?_⟩
      · by_cases hs : rS = true <;>
          by_cases hm : method = "cached" <;>
            simp only [hs, hm, if_true, if_false, Bool.false_eq_true,
              Except.ok.injEq, Prod.mk.injEq] at h <;>
          · rw [← h.2.1]
            simp [List.append_assoc]
      · by_cases hs : rS = true <;> simp [hs] at h
  · simp only [hp, Bool.not_false, Bool.false_eq_true, if_true]
    refine ⟨fun res tr s1 h => ?_, fun v' s1' t2' h => ?_⟩
    · simp at h
    · simp only [Except.error.injEq, Prod.mk.injEq] at h
      rw [← h.2.2]

/-- On macOS with valid options, every `authenticate` outcome's trace
starts with `authentication:start` followed by the `waitForInit`
suspension point. -/
theorem authenticateE_trace_starts {σ : Type} (st : ServiceState)
    (provider : PromptArgs → σ → σ × ProviderResp) (s : σ)
    (opts : TouchIDOptions) (hmac : st.isMac = true)
    (hval : (validateOptions opts).valid = true) :
    ∀ res tr s', authenticateE st provider s opts = Except.ok (res, tr, s') →
      [Step.emit (.authStart (jsOrStr opts.method "direct")
          (jsOrStr opts.reason "Authenticate with Touch ID")),
       Step.awaitInit] <+: tr := by
  intro res tr s' h
  unfold authenticateE at h
  simp only [hmac, hval, Bool.not_true, Bool.false_eq_true, if_false,
    List.singleton_append, List.cons_append, List.nil_append] at h
  by_cases hnm : st.nativeModule = true
  · simp only [hnm, Bool.not_true, Bool.false_eq_true, if_false] at h
    split at h
    next out heq =>
      obtain ⟨rfl⟩ : out = (res, tr, s') := by
        simpa using h
      exact (authTry_trace_extends st provider s _ _ _ _).1 _ _ _ heq
    next v s1 t2 heq =>
      rcases hc : classifyCatch (jsOrStr opts.method "direct") (thrownMessage v)
        with ⟨mappedError, extra⟩
      rw [hc] at h
      simp only [Except.ok.injEq, Prod.mk.injEq] at h
      rw [← h.2.1]
      exact ((authTry_trace_extends st provider s _ _ _ _).2 _ _ _ heq).trans
        (by simp [List.append_assoc])
  · simp only [hnm, Bool.not_false, if_true,
      Except.ok.injEq, Prod.mk.injEq] at h
    rw [← h.2.1]
    simp

/-- On macOS, every `isAvailable` outcome's trace passes the
`waitForInit` suspension point. -/
theorem isAvailableE_passes_wait (st : ServiceState) (b : AvailBehavior)
    (hmac : st.isMac = true) :
    ∀ res tr, isAvailableE st b = Except.ok (res, tr) → Step.awaitInit ∈ tr := by
  intro res tr h
  unfold isAvailableE at h
  simp only [hmac, Bool.not_true, Bool.false_eq_true, if_false] at h
  by_cases hnm : st.nativeModule = true
  · simp only [hnm, Bool.not_true, Bool.false_eq_true, if_false] at h
    unfold isAvailableTry at h
    by_cases hcp : st.canPromptFn = true
    · cases b with
      | resolve bb =>
        cases bb <;>
          simp only [hcp, if_true, Except.ok.injEq, Prod.mk.injEq] at h <;>
          · rw [← h.2]
            simp
      | throwV v =>
        simp only [hcp, if_true, Except.ok.injEq, Prod.mk.injEq] at h
        rw [← h.2]
        simp
    · simp only [hcp, Bool.false_eq_true, if_false,
        Except.ok.injEq, Prod.mk.injEq] at h
      rw [← h.2]
      simp
  · simp only [hnm, Bool.not_false, if_true,
      Except.ok.injEq, Prod.mk.injEq] at h
    rw [← h.2]
    simp

/-- On macOS, every `getBiometricInfo` outcome's trace passes the
`waitForInit` suspension point. -/
theorem getBiometricInfoE_passes_wait (st : ServiceState) (ib : InfoBehavior)
    (hmac : st.isMac = true) :
    ∀ info tr, getBiometricInfoE st ib = Except.ok (info, tr) →
      Step.awaitInit ∈ tr := by
  intro info tr h
  unfold getBiometricInfoE at h
  simp only [hmac, Bool.not_true, Bool.false_eq_true, if_false] at h
  by_cases hnm : st.nativeModule = true
  · simp only [hnm, Bool.not_true, Bool.false_eq_true, if_false] at h
    by_cases hif : st.infoFn = true
    · cases ib with
      | resolve i =>
        simp only [hif, if_true, Except.ok.injEq, Prod.mk.injEq] at h
        rw [← h.2]
        simp
      | throwV v =>
        simp only [hif, if_true, Except.ok.injEq, Prod.mk.injEq] at h
        rw [← h.2]
        simp
    · simp only [hif, Bool.false_eq_true, if_false,
        Except.ok.injEq, Prod.mk.injEq] at h
      rw [← h.2]
      simp
  · simp only [hnm, Bool.not_false, if_true,
      Except.ok.injEq, Prod.mk.injEq] at h
    rw [← h.2]
    simp

/-- Claim C4 (amended).  On macOS, every `authenticate` call with valid
options, every `isAvailable` call and every `getBiometricInfo` call
passes the `waitForInit` suspension point (awaiting completion of
initialization) before its outcome is returned; for `authenticate` the
trace begins `authentication:start`, `waitForInit`.  (Calls that fail
the platform check or option validation return without awaiting — see
the counterexample.) -/
theorem C4_amended_await_before_native {σ : Type} (st : ServiceState)
    (provider : PromptArgs → σ → σ × ProviderResp) (s : σ)
    (opts : TouchIDOptions) (b : AvailBehavior) (ib : InfoBehavior) :
    (st.isMac = true → (validateOptions opts).valid = true →
      ∀ res tr s', authenticateE st provider s opts = Except.ok (res, tr, s') →
        Step.awaitInit ∈ tr) ∧
    (st.isMac = true →
      ∀ res tr, isAvailableE st b = Except.ok (res, tr) → Step.awaitInit ∈ tr) ∧
    (st.isMac = true →
      ∀ info tr, getBiometricInfoE st ib = Except.ok (info, tr) →
        Step.awaitInit ∈ tr) := by
  refine ⟨fun hmac hval res tr s' h => ?_,
    fun hmac => isAvailableE_passes_wait st b hmac,
    fun hmac => getBiometricInfoE_passes_wait st ib hmac⟩
  have hpre := authenticateE_trace_starts st provider s opts hmac hval res tr s' h
  exact hpre.subset (by simp)

/-- Claim C4 (amended), witness at a concrete ready state with valid
default options and concrete provider behaviours. -/
theorem C4_amended_witness :
    (stReady.isMac = true ∧ (validateOptions optsDirect).valid = true) ∧
    (∀ res tr s', authenticateE stReady provResolveFail () optsDirect =
        Except.ok (res, tr, s') → Step.awaitInit ∈ tr) ∧
    (∀ res tr, isAvailableE stReady (.resolve true) = Except.ok (res, tr) →
        Step.awaitInit ∈ tr) ∧
    (∀ info tr, getBiometricInfoE stReady (.resolve emptyInfo) = Except.ok (info, tr) →
        Step.awaitInit ∈ tr) :=
  ⟨⟨rfl, rfl⟩,
   (C4_amended_await_before_native stReady provResolveFail () optsDirect
     (.resolve true) (.resolve emptyInfo)).1 rfl rfl,
   (C4_amended_await_before_native stReady provResolveFail () optsDirect
     (.resolve true) (.resolve emptyInfo)).2.1 rfl,
   (C4_amended_await_before_native stReady provResolveFail () optsDirect
     (.resolve true) (.resolve emptyInfo)).2.2 rfl⟩

/-- The classification step of the catch block only ever adds
`device:lockout` or `authentication:cancel` emissions — never a cache
event. -/
theorem classifyCatch_no_cache (method msg : String) :
    (((classifyCatch method msg).2).all fun x => !isCacheStep x) = true := by
  unfold classifyCatch
  repeat' split
  all_goals rfl

/-- For a non-cached method, the `try` block of `authenticate` adds no
cache event to a trace free of them. -/
theorem authTry_no_cache {σ : Type} (st : ServiceState)
    (provider : PromptArgs → σ → σ × ProviderResp) (s0 : σ)
    (reason method : String) (ttl : Int) (t1 : List Step)
    (hm : method ≠ "cached")
    (ht1 : (t1.all fun x => !isCacheStep x) = true) :
    (∀ res tr s1, authTry st provider s0 reason method ttl t1 =
        Except.ok (res, tr, s1) → (tr.all fun x => !isCacheStep x) = true) ∧
    (∀ v s1 t2, authTry st provider s0 reason method ttl t1 =
        Except.error (v, s1, t2) → (t2.all fun x => !isCacheStep x) = true) := by
  unfold authTry
  by_cases hp : st.promptFn = true
  · rcases hpr : provider ⟨reason, method, ttl⟩ s0 with ⟨s2, resp⟩
    simp only [hp, Bool.not_true, Bool.false_eq_true, if_false, hpr]
    cases resp with
    | reject v =>
      refine ⟨fun res tr s1 h => ?_, fun v' s1' t2' h => ?_⟩
      · simp at h
      · simp only [Except.error.injEq, Prod.mk.injEq] at h
        rw [← h.2.2, List.all_append, ht1]
        rfl
    | resolve rS rE rD =>
      refine ⟨fun res tr s1 h => ?_, fun v' s1' t2' h => ?_⟩
      · by_cases hs : rS = true <;>
          simp only [hs, hm, if_true, if_false, Bool.false_eq_true,
            Except.ok.injEq, Prod.mk.injEq] at h <;>
          · rw [← h.2.1, List.all_append, List.all_append, ht1]
            rfl
      · by_cases hs : rS = true <;> simp [hs] at h
  · simp only [hp, Bool.not_false, Bool.false_eq_true, if_true]
    refine ⟨fun res tr s1 h => ?_, fun v' s1' t2' h => ?_⟩
    · simp at h
    · simp only [Except.error.injEq, Prod.mk.injEq] at h
      rw [← h.2.2]
      exact ht1

/-- An `authenticate` call whose effective method is not `'cached'`
never emits a cache event, whatever the state and provider behaviour. -/
theorem authenticateE_no_cache {σ : Type} (st : ServiceState)
    (provider : PromptArgs → σ → σ × ProviderResp) (s : σ)
    (opts : TouchIDOptions) (hm : jsOrStr opts.method "direct" ≠ "cached") :
    ∀ res tr s', authenticateE st provider s opts = Except.ok (res, tr, s') →
      (tr.all fun x => !isCacheStep x) = true := by
  intro res tr s' h
  unfold authenticateE at h
  by_cases hmac : st.isMac = true
  · simp only [hmac, Bool.not_true, Bool.false_eq_true, if_false,
      List.singleton_append, List.cons_append, List.nil_append] at h
    by_cases hval : (validateOptions opts).valid = true
    · simp only [hval, Bool.not_true, Bool.false_eq_true, if_false] at h
      by_cases hnm : st.nativeModule = true
      · simp only [hnm, Bool.not_true, Bool.false_eq_true, if_false] at h
        have ht1 : (([Step.emit (.authStart (jsOrStr opts.method "direct")
            (jsOrStr opts.reason "Authenticate with Touch ID")),
            Step.awaitInit] : List Step).all fun x => !isCacheStep x) = true := rfl
        split at h
        next out heq =>
          obtain ⟨rfl⟩ : out = (res, tr, s') := by
            simpa using h
          exact (authTry_no_cache st provider s _ _ _ _ hm ht1).1 _ _ _ heq
        next v s1 t2 heq =>
          rcases hc : classifyCatch (jsOrStr opts.method "direct") (thrownMessage v)
            with ⟨mappedError, extra⟩
          rw [hc] at h
          simp only [Except.ok.injEq, Prod.mk.injEq] at h
          rw [← h.2.1]
          have h2 := (authTry_no_cache st provider s _ _ _ _ hm ht1).2 _ _ _ heq
          have h3 : (extra.all fun x => !isCacheStep x) = true := by
            have h4 := classifyCatch_no_cache (jsOrStr opts.method "direct")
              (thrownMessage v)
            rw [hc] at h4
            exact h4
          rw [List.all_append, List.all_append, h2, h3]
          rfl
      · have hnm' : st.nativeModule = false := by
          simpa using hnm
        simp only [hnm', Bool.not_false, if_true,
          Except.ok.injEq, Prod.mk.injEq] at h
        rw [← h.2.1]
        rfl
    · have hval' : (validateOptions opts).valid = false := by
        simpa using hval
      simp only [hval', Bool.not_false, if_true,
        Except.ok.injEq, Prod.mk.injEq] at h
      rw [← h.2.1]
      rfl
  · have hmac' : st.isMac = false := by
      simpa using hmac
    simp only [hmac', Bool.not_false, if_true,
      Except.ok.injEq, Prod.mk.injEq] at h
    rw [← h.2.1]
    rfl

/-- Shape of `authenticate` on macOS with valid options when the native
module failed to load. -/
theorem authenticateE_module_missing {σ : Type} (st : ServiceState)
    (provider : PromptArgs → σ → σ × ProviderResp) (s : σ)
    (opts : TouchIDOptions) (hmac : st.isMac = true)
    (hval : (validateOptions opts).valid = true)
    (hnm : st.nativeModule = false) :
    authenticateE st provider s opts =
      Except.ok (⟨false, some errNativeModule, none⟩,
        [Step.emit (.authStart (jsOrStr opts.method "direct")
            (jsOrStr opts.reason "Authenticate with Touch ID")),
         Step.awaitInit,
         Step.emit (.authFailure (jsOrStr opts.method "direct") errNativeModule)], s) := by
  unfold authenticateE
  simp [hmac, hval, hnm]

/-- Claim C9 (amended).  `authenticate({method:'direct'})` never emits a
`cache:created`, `cache:used` or `cache:expired` event, in any state and
for any provider behaviour; and in the availability-false states the
call detects before reaching the provider it returns a failure
immediately — `{success:false, error:'Touch ID not available'}` when the
platform is not macOS, and
`{success:false, error:'Touch ID native module not available'}` when the
native module failed to load. -/
theorem C9_amended_unavailable_direct {σ : Type} (st : ServiceState)
    (provider : PromptArgs → σ → σ × ProviderResp) (s : σ) :
    (st.isMac = false →
      authenticateE st provider s optsDirect =
        Except.ok (⟨false, some errNotAvailable, none⟩,
          [Step.emit (.authStart "direct" "Authenticate with Touch ID"),
           Step.emit (.authFailure "direct" errNotAvailable)], s)) ∧
    (st.isMac = true → st.nativeModule = false →
      authenticateE st provider s optsDirect =
        Except.ok (⟨false, some errNativeModule, none⟩,
          [Step.emit (.authStart "direct" "Authenticate with Touch ID"),
           Step.awaitInit,
           Step.emit (.authFailure "direct" errNativeModule)], s)) ∧
    (∀ res tr s', authenticateE st provider s optsDirect = Except.ok (res, tr, s') →
      (tr.all fun x => !isCacheStep x) = true) := by
  refine ⟨fun hmac => ?_, fun hmac hnm => ?_, ?_⟩
  · rw [authenticateE_nonmac st provider s optsDirect hmac]
    rfl
  · rw [authenticateE_module_missing st provider s optsDirect hmac rfl hnm]
    rfl
  · exact authenticateE_no_cache st provider s optsDirect (by decide)

/-- Claim C9 (amended), witness: the three conjuncts discharged at the
non-macOS state, at the module-missing state, and at a fully available
state with the concrete failing provider. -/
theorem C9_amended_witness :
    (stNonMac.isMac = false ∧
      authenticateE stNonMac provResolveFail () optsDirect =
        Except.ok (⟨false, some errNotAvailable, none⟩,
          [Step.emit (.authStart "direct" "Authenticate with Touch ID"),
           Step.emit (.authFailure "direct" errNotAvailable)], ())) ∧
    (stNoModule.isMac = true ∧ stNoModule.nativeModule = false ∧
      authenticateE stNoModule provResolveFail () optsDirect =
        Except.ok (⟨false, some errNativeModule, none⟩,
          [Step.emit (.authStart "direct" "Authenticate with Touch ID"),
           Step.awaitInit,
           Step.emit (.authFailure "direct" errNativeModule)], ())) ∧
    (([Step.emit (Event.authStart "direct" "Authenticate with Touch ID"),
       Step.awaitInit,
       Step.callProvider "Authenticate with Touch ID" "direct" 30000,
       Step.emit (Event.authFailure "direct" "Authentication failed")].all
        fun x => !isCacheStep x) = true) :=
  ⟨⟨rfl, (C9_amended_unavailable_direct stNonMac provResolveFail ()).1 rfl⟩,
   ⟨rfl, rfl, (C9_amended_unavailable_direct stNoModule provResolveFail ()).2.1 rfl rfl⟩,
   (C9_amended_unavailable_direct stReady provResolveFail ()).2.2
     ⟨true, none, none⟩
     [Step.emit (Event.authStart "direct" "Authenticate with Touch ID"),
      Step.awaitInit,
      Step.callProvider "Authenticate with Touch ID" "direct" 30000,
      Step.emit (Event.authFailure "direct" "Authentication failed")] ()
     (by rfl)⟩

/-- Claim C3 (amended), witness: `authenticate({ttl: 500})` on macOS. -/
theorem C3_amended_witness :
    (ttlOutOfRange (some 500) = true ∨ reasonBlank none = true) ∧
    ((∃ msg, (validateOptions ⟨none, none, some 500⟩).error = some msg ∧
      (stReady.isMac = true →
        authenticateE stReady provResolveFail () ⟨none, none, some 500⟩ =
          Except.ok (⟨false, some msg, none⟩,
            [Step.emit (.authStart (jsOrStr none "direct")
                (jsOrStr none "Authenticate with Touch ID")),
             Step.emit (.authFailure (jsOrStr none "direct") msg)], ()))) ∧
    (∀ res tr s', authenticateE stReady provResolveFail () ⟨none, none, some 500⟩ =
        Except.ok (res, tr, s') →
      res.success = false ∧ (tr.all fun x => !isCallStep x) = true)) :=
  ⟨Or.inl (by decide),
   C3_amended_validation_before_provider stReady provResolveFail ()
     ⟨none, none, some 500⟩ (Or.inl (by decide))⟩

/-- Claim C5.  No public operation except `test()` throws: for every
state, options and provider behaviour, `authenticate`, `isAvailable`
and `getBiometricInfo` resolve to an `Except.ok` value; and when the
provider's availability check throws an `Error`, `isAvailable` catches
it, emits `device:unavailable` with the error's message as reason, and
returns `false`. -/
theorem C5_public_ops_never_throw {σ : Type} (st : ServiceState)
    (provider : PromptArgs → σ → σ × ProviderResp) (s : σ)
    (opts : TouchIDOptions) (b : AvailBehavior) (ib : InfoBehavior)
    (m : String) :
    (∃ out, authenticateE st provider s opts = Except.ok out) ∧
    (∃ out, isAvailableE st b = Except.ok out) ∧
    (∃ out, getBiometricInfoE st ib = Except.ok out) ∧
    (st.isMac = true → st.nativeModule = true → st.canPromptFn = true →
      isAvailableE st (.throwV (.errorObj m)) =
        Except.ok (false, [Step.awaitInit, Step.emit (.deviceUnavailable m)])) := by
  refine ⟨?_, ?_, ?_, fun hmac hnm hcp => ?_⟩
  · unfold authenticateE
    dsimp only
    repeat' split
    all_goals exact ⟨_, rfl⟩
  · unfold isAvailableE
    dsimp only
    repeat' split
    all_goals exact ⟨_, rfl⟩
  · unfold getBiometricInfoE
    dsimp only
    repeat' split
    all_goals exact ⟨_, rfl⟩
  · unfold isAvailableE isAvailableTry
    simp [hmac, hnm, hcp, thrownMessage]

/-- Claim C5, witness at a ready state with concrete behaviours, the
availability probe throwing `Error('boom')`. -/
theorem C5_witness :
    (∃ out, authenticateE stReady provResolveFail () optsDirect = Except.ok out) ∧
    (∃ out, isAvailableE stReady (.resolve true) = Except.ok out) ∧
    (∃ out, getBiometricInfoE stReady (.resolve emptyInfo) = Except.ok out) ∧
    (stReady.isMac = true ∧ stReady.nativeModule = true ∧
      stReady.canPromptFn = true ∧
      isAvailableE stReady (.throwV (.errorObj "boom")) =
        Except.ok (false, [Step.awaitInit, Step.emit (.deviceUnavailable "boom")])) :=
  have T := C5_public_ops_never_throw stReady provResolveFail () optsDirect
    (.resolve true) (.resolve emptyInfo) "boom"
  ⟨T.1, T.2.1, T.2.2.1, rfl, rfl, rfl, T.2.2.2 rfl rfl rfl⟩

/-- Claim C8.  Recording a success at time `now` with `ttl > 0` (the
request's `cacheTTL := ttl / 1000.0` assignment followed by the success
callback's `lastAuthTime = now; isCached = YES`) makes the validity
check true at `now` and at `now + ttl - 1` and false at `now + ttl`; in
general validity after the record holds exactly on the half-open window
`m - now < ttl`, and for an arbitrary cache state the check is true iff
an entry exists (`lastAuthTime` set and `isCached`) and
`now - lastSuccessAt < ttl`. -/
theorem C8_cache_validity_window (c : NativeCache) (now ttl : Int)
    (hpos : 0 < ttl) :
    (cacheIsValid (cacheRecord { c with cacheTTLms := ttl } now) now = true ∧
     cacheIsValid (cacheRecord { c with cacheTTLms := ttl } now) (now + ttl - 1) = true ∧
     cacheIsValid (cacheRecord { c with cacheTTLms := ttl } now) (now + ttl) = false) ∧
    (∀ m : Int,
      cacheIsValid (cacheRecord { c with cacheTTLms := ttl } now) m = true ↔
        m - now < ttl) ∧
    (cacheIsValid c now = true ↔
      ∃ t, c.lastAuthTime = some t ∧ c.isCached = true ∧
        timeSinceMs now t < c.cacheTTLms) := by
  refine ⟨⟨?_, ?_, ?_⟩, fun m => ?_, ?_⟩
  · simp only [cacheIsValid, cacheRecord, timeSinceMs, Bool.true_and,
      decide_eq_true_eq]
    omega
  · simp only [cacheIsValid, cacheRecord, timeSinceMs, Bool.true_and,
      decide_eq_true_eq]
    omega
  · simp only [cacheIsValid, cacheRecord, timeSinceMs, Bool.true_and,
      decide_eq_false_iff_not, decide_eq_true_eq]
    omega
  · simp only [cacheIsValid, cacheRecord, timeSinceMs, Bool.true_and,
      decide_eq_true_eq]
  · cases hlt : c.lastAuthTime with
    | none => simp [cacheIsValid, hlt]
    | some t =>
      simp [cacheIsValid, hlt, Bool.and_eq_true, decide_eq_true_eq]

/-- Claim C8, witness at `now = 0`, `ttl = 30000` on the initial cache
state. -/
theorem C8_cache_validity_window_witness :
    0 < (30000 : Int) ∧
    ((cacheIsValid (cacheRecord { emptyCache with cacheTTLms := 30000 } 0) 0 = true ∧
      cacheIsValid (cacheRecord { emptyCache with cacheTTLms := 30000 } 0)
        (0 + 30000 - 1) = true ∧
      cacheIsValid (cacheRecord { emptyCache with cacheTTLms := 30000 } 0)
        (0 + 30000) = false) ∧
    (∀ m : Int,
      cacheIsValid (cacheRecord { emptyCache with cacheTTLms := 30000 } 0) m = true ↔
        m - 0 < 30000) ∧
    (cacheIsValid emptyCache 0 = true ↔
      ∃ t, emptyCache.lastAuthTime = some t ∧ emptyCache.isCached = true ∧
        timeSinceMs 0 t < emptyCache.cacheTTLms)) :=
  ⟨by decide, C8_cache_validity_window emptyCache 0 30000 (by decide)⟩

/-- `Map.get` after `Map.set` at the same key. -/
theorem lookupK_setK_self (r : Registry) (k : Kind) (v : List Listener) :
    lookupK (setK r k v) k = some v := by
  induction r with
  | nil => simp [setK, lookupK]
  | cons p rest ih =>
    obtain ⟨k', v'⟩ := p
    by_cases hk : k' = k
    · simp [setK, lookupK, hk]
    · simp [setK, lookupK, hk, ih]

/-- `Map.get` after `Map.set` at another key. -/
theorem lookupK_setK_ne (r : Registry) {k' k : Kind} (v : List Listener)
    (hk : k' ≠ k) : lookupK (setK r k' v) k = lookupK r k := by
  induction r with
  | nil => simp [setK, lookupK, hk]
  | cons p rest ih =>
    obtain ⟨k₀, v₀⟩ := p
    by_cases h0 : k₀ = k'
    · simp [setK, lookupK, h0, hk]
    · simp only [setK, lookupK, h0, if_false]
      by_cases h1 : k₀ = k <;> simp [h1, ih]

/-- `Map.get` after `Map.delete` at the same key. -/
theorem lookupK_deleteK_self (r : Registry) (k : Kind) :
    lookupK (deleteK r k) k = none := by
  induction r with
  | nil => rfl
  | cons p rest ih =>
    obtain ⟨k₀, v₀⟩ := p
    by_cases h0 : k₀ = k
    · simpa [deleteK, h0] using ih
    · simpa [deleteK, lookupK, h0] using ih

/-- `Map.get` after `Map.delete` at another key. -/
theorem lookupK_deleteK_ne (r : Registry) {k' k : Kind} (hk : k' ≠ k) :
    lookupK (deleteK r k') k = lookupK r k := by
  induction r with
  | nil => rfl
  | cons p rest ih =>
    obtain ⟨k₀, v₀⟩ := p
    by_cases h0 : k₀ = k'
    · have h1 : ¬k₀ = k := by
        rw [h0]
        exact hk
      simp [deleteK, lookupK, h0, h1, hk, ih]
    · by_cases h1 : k₀ = k
      · have h2 : ¬k = k' := by
          rw [← h1]
          exact h0
        simp [deleteK, lookupK, h0, h1, h2, ih]
      · simp [deleteK, lookupK, h0, h1, ih]

/-- A kind is listed by `eventNames` exactly when `Map.get` finds it. -/
theorem mem_eventNames_iff (r : Registry) (k : Kind) :
    k ∈ eventNames r ↔ (lookupK r k).isSome := by
  induction r with
  | nil => simp [eventNames, lookupK]
  | cons p rest ih =>
    obtain ⟨k₀, v₀⟩ := p
    by_cases h0 : k₀ = k
    · simp [eventNames, lookupK, h0]
    · have h1 : ¬k = k₀ := fun h => h0 h.symm
      simpa [eventNames, lookupK, h0, h1] using ih

/-- Removing the first matching entry yields a subset of the entries. -/
theorem mem_removeFirstHandler {ls : List Listener} {g : HId} {l : Listener}
    (h : l ∈ removeFirstHandler ls g) : l ∈ ls := by
  induction ls with
  | nil => simp [removeFirstHandler] at h
  | cons l0 rest ih =>
    by_cases h0 : l0.handler = g
    · simp only [removeFirstHandler, h0, if_true] at h
      exact List.mem_cons_of_mem _ h
    · simp only [removeFirstHandler, h0, if_false] at h
      rcases List.mem_cons.mp h with h1 | h1
      · exact h1 ▸ List.mem_cons_self _ _
      · exact List.mem_cons_of_mem _ (ih h1)

/-- The dispatch loop invokes exactly the snapshot handlers, in order,
regardless of what the handlers do to the registry or whether they
throw. -/
theorem dispatch_fold_invoked (sem : HId → Effect) (ls : List Listener)
    (r : Registry) (a : List HId) :
    (ls.foldl (dispatchStep sem) (r, a)).2 = a ++ ls.map (fun l => l.handler) := by
  induction ls generalizing r a with
  | nil => simp
  | cons l rest ih =>
    simp only [List.foldl_cons, List.map_cons]
    rcases hr : runHandler sem r l.handler with ⟨r', e⟩
    cases e <;>
      simp [dispatchStep, hr, ih]

/-- `emit` invokes exactly the handlers registered for the kind at the
moment of the call, in registration order: the snapshot taken before
dispatch, unaffected by anything the handlers do. -/
theorem emit_invoked (sem : HId → Effect) (r : Registry) (k : Kind) :
    (emit sem r k).2 = handlersAt r k := by
  unfold emit handlersAt
  cases hl : lookupK r k with
  | none => simp
  | some ls =>
    by_cases he : ls.length = 0
    · rw [List.length_eq_zero] at he
      subst he
      simp
    · simp only [he, if_false]
      rw [dispatch_fold_invoked]
      simp

/-- `dispatchStep` in closed form: the handler's registry operations are
applied, the invocation is recorded, and a throw changes nothing else
(it is caught). -/
theorem dispatchStep_eq (sem : HId → Effect) (acc : Registry × List HId)
    (l : Listener) :
    dispatchStep sem acc l =
      (((sem l.handler).ops).foldl applyOp acc.1, acc.2 ++ [l.handler]) := by
  unfold dispatchStep runHandler
  by_cases ht : (sem l.handler).throws = true <;> simp [ht]

/-- Pushing a listener for another handler (or another kind) cannot make
`h` registered for `k`. -/
theorem not_mem_handlersAt_push (r : Registry) (k' k : Kind) (g h : HId)
    (b : Bool) (hgh : k' = k → g ≠ h)
    (hnm : h ∉ handlersAt r k) :
    h ∉ handlersAt (setK r k' (((lookupK r k').getD []) ++ [⟨g, b⟩])) k := by
  by_cases hk : k' = k
  · subst hk
    unfold handlersAt at hnm ⊢
    rw [lookupK_setK_self]
    simp only [Option.getD_some, List.map_append, List.map_cons, List.map_nil]
    intro hmem
    rcases List.mem_append.mp hmem with h1 | h1
    · exact hnm h1
    · exact hgh rfl (List.mem_singleton.mp h1).symm
  · unfold handlersAt at hnm ⊢
    rw [lookupK_setK_ne _ _ hk]
    exact hnm

/-- A registry operation that does not register `h` for `k` preserves
`h`'s absence from `k`'s handlers. -/
theorem not_mem_handlersAt_applyOp (r : Registry) (k : Kind) (h : HId)
    (op : Op) (hop : op ≠ Op.opOn k h ∧ op ≠ Op.opOnce k h)
    (hnm : h ∉ handlersAt r k) : h ∉ handlersAt (applyOp r op) k := by
  cases op with
  | opOn k' g =>
    refine not_mem_handlersAt_push r k' k g h false (fun hk hg => ?_) hnm
    exact hop.1 (by rw [hk, hg])
  | opOnce k' g =>
    refine not_mem_handlersAt_push r k' k g h true (fun hk hg => ?_) hnm
    exact hop.2 (by rw [hk, hg])
  | opOff k' g =>
    show h ∉ handlersAt (emOff r k' g) k
    unfold emOff
    cases hl : lookupK r k' with
    | none => exact hnm
    | some ls =>
      dsimp only
      by_cases hz : (removeFirstHandler ls g).length = 0
      · simp only [hz, if_true]
        by_cases hk : k' = k
        · subst hk
          unfold handlersAt
          rw [lookupK_deleteK_self]
          simp
        · unfold handlersAt at hnm ⊢
          rw [lookupK_deleteK_ne _ hk]
          exact hnm
      · simp only [hz, if_false]
        by_cases hk : k' = k
        · subst hk
          unfold handlersAt at hnm ⊢
          rw [lookupK_setK_self]
          intro hmem
          rcases List.mem_map.mp hmem with ⟨l, hl2, hl3⟩
          refine hnm ?_
          rw [hl]
          exact List.mem_map.mpr ⟨l, mem_removeFirstHandler hl2, hl3⟩
        · unfold handlersAt at hnm ⊢
          rw [lookupK_setK_ne _ _ hk]
          exact hnm
  | opRemoveAll ko =>
    show h ∉ handlersAt (emRemoveAll r ko) k
    cases ko with
    | none =>
      unfold emRemoveAll handlersAt
      simp [lookupK]
    | some k' =>
      unfold emRemoveAll
      by_cases hk : k' = k
      · subst hk
        unfold handlersAt
        rw [lookupK_deleteK_self]
        simp
      · unfold handlersAt at hnm ⊢
        rw [lookupK_deleteK_ne _ hk]
        exact hnm

/-- A sequence of operations none of which registers `h` for `k`
preserves `h`'s absence. -/
theorem not_mem_handlersAt_applyOps (ops : List Op) (r : Registry)
    (k : Kind) (h : HId)
    (hops : ∀ op ∈ ops, op ≠ Op.opOn k h ∧ op ≠ Op.opOnce k h)
    (hnm : h ∉ handlersAt r k) : h ∉ handlersAt (ops.foldl applyOp r) k := by
  induction ops generalizing r with
  | nil => exact hnm
  | cons op rest ih =>
    simp only [List.foldl_cons]
    exact ih _ (fun o ho => hops o (List.mem_cons_of_mem _ ho))
      (not_mem_handlersAt_applyOp r k h op (hops op (List.mem_cons_self _ _)) hnm)

/-- The dispatch loop, run over handlers none of whose effects register
`h` for `k`, preserves `h`'s absence from `k`'s handlers. -/
theorem not_mem_handlersAt_dispatch (sem : HId → Effect) (ls : List Listener)
    (r : Registry) (a : List HId) (k : Kind) (h : HId)
    (hops : ∀ l ∈ ls, ∀ op ∈ (sem l.handler).ops,
      op ≠ Op.opOn k h ∧ op ≠ Op.opOnce k h)
    (hnm : h ∉ handlersAt r k) :
    h ∉ handlersAt ((ls.foldl (dispatchStep sem) (r, a)).1) k := by
  induction ls generalizing r a with
  | nil => exact hnm
  | cons l rest ih =>
    simp only [List.foldl_cons, dispatchStep_eq]
    exact ih _ _ (fun l' hl' => hops l' (List.mem_cons_of_mem _ hl'))
      (not_mem_handlersAt_applyOps _ r k h
        (hops l (List.mem_cons_self _ _)) hnm)

/-- After an `emit`, a handler absent from the pruned registry and not
re-registered by any snapshot handler's effects is absent from the
kind's handlers. -/
theorem emit_not_mem (sem : HId → Effect) (r : Registry) (k : Kind) (h : HId)
    (hops : ∀ l ∈ (lookupK r k).getD [], ∀ op ∈ (sem l.handler).ops,
      op ≠ Op.opOn k h ∧ op ≠ Op.opOnce k h)
    (hrem : h ∉ ((((lookupK r k).getD []).filter (fun l => !l.once)).map
      (fun l => l.handler))) :
    h ∉ handlersAt (emit sem r k).1 k := by
  unfold emit
  cases hl : lookupK r k with
  | none =>
    unfold handlersAt
    rw [hl]
    simp
  | some ls =>
    by_cases hz : ls.length = 0
    · rw [List.length_eq_zero] at hz
      subst hz
      simp [handlersAt, hl]
    · simp only [hz, if_false]
      rw [hl] at hops hrem
      refine not_mem_handlersAt_dispatch sem ls _ [] k h hops ?_
      unfold handlersAt
      rw [lookupK_setK_self]
      exact hrem

/-- Claim C6.  A handler registered exactly once, via `once`, for a kind
(the registry list is `pre ++ [{handler := h, once := true}] ++ post`
with `h` in neither side) and not re-registered for that kind by any
registered handler's effects, is invoked exactly once across two
consecutive emits of the kind — it fires in the first pass and not in
the second; and, for any handler semantics whatsoever (including
handlers that register or remove handlers mid-dispatch, or a
once-handler that re-registers itself during its own invocation), the
handlers invoked by an `emit` are exactly those registered at the moment
of the call, in order: the snapshot is taken and once-entries are pruned
before dispatch begins. -/
theorem C6_once_semantics (sem : HId → Effect) (r : Registry) (k : Kind)
    (h : HId) (pre post : List Listener)
    (hl : lookupK r k = some (pre ++ Listener.mk h true :: post))
    (hpre : h ∉ pre.map (fun l => l.handler))
    (hpost : h ∉ post.map (fun l => l.handler))
    (hops : ∀ l ∈ pre ++ Listener.mk h true :: post,
      ∀ op ∈ (sem l.handler).ops, op ≠ Op.opOn k h ∧ op ≠ Op.opOnce k h) :
    ((emit sem r k).2.count h = 1 ∧
     (emit sem ((emit sem r k).1) k).2.count h = 0) ∧
    (∀ sem' : HId → Effect, (emit sem' r k).2 = handlersAt r k) := by
  have hinv : (emit sem r k).2 =
      pre.map (fun l => l.handler) ++ h :: post.map (fun l => l.handler) := by
    rw [emit_invoked]
    unfold handlersAt
    rw [hl]
    simp
  refine ⟨⟨?_, ?_⟩, fun sem' => emit_invoked sem' r k⟩
  · rw [hinv, List.count_append]
    rw [List.count_eq_zero.mpr hpre, List.count_cons_self,
      List.count_eq_zero.mpr hpost]
  · have hnm2 : h ∉ handlersAt (emit sem r k).1 k := by
      refine emit_not_mem sem r k h (by rw [hl]; exact hops) ?_
      rw [hl]
      simp only [Option.getD_some]
      intro hmem
      rcases List.mem_map.mp hmem with ⟨l, hl2, hl3⟩
      have hl4 := List.mem_filter.mp hl2
      rcases List.mem_append.mp hl4.1 with h5 | h5
      · exact hpre (List.mem_map.mpr ⟨l, h5, hl3⟩)
      · rcases List.mem_cons.mp h5 with h6 | h6
        · rw [h6] at hl4
          simp at hl4
        · exact hpost (List.mem_map.mpr ⟨l, h6, hl3⟩)
    rw [emit_invoked]
    exact List.count_eq_zero.mpr hnm2

/-- Claim C6, witness: handler 0 registered via `once` ahead of a
persistent handler 1, all handlers pure; the exactly-once count across
two emits. -/
theorem C6_once_semantics_witness :
    (emit semPure regOnceThenOn "initialization:complete").2.count 0 = 1 ∧
    (emit semPure
      ((emit semPure regOnceThenOn "initialization:complete").1)
      "initialization:complete").2.count 0 = 0 :=
  (C6_once_semantics semPure regOnceThenOn "initialization:complete" 0
    [] [⟨1, false⟩] rfl (by decide) (by decide) (by decide)).1

/-- Claim C7.  With two or more handlers registered for a kind, the
first handler throwing does not prevent the remaining snapshot handlers
from being invoked in the same `emit` call: the invocation list is the
whole snapshot, in order, and `emit` returns normally (the throw is
caught inside the dispatch loop). -/
theorem C7_handler_isolation (sem : HId → Effect) (r : Registry) (k : Kind)
    (l1 l2 : Listener) (rest : List Listener)
    (hl : lookupK r k = some (l1 :: l2 :: rest))
    (hthrow : (sem l1.handler).throws = true) :
    (emit sem r k).2 = l1.handler :: l2.handler :: rest.map (fun l => l.handler) := by
  rw [emit_invoked]
  unfold handlersAt
  rw [hl]
  simp

/-- Claim C7, witness: handler 0 throws, handler 1 is still invoked
after it in the same emit. -/
theorem C7_handler_isolation_witness :
    (emit semThrowing regTwoOn "authentication:failure").2 = [0, 1] :=
  C7_handler_isolation semThrowing regTwoOn "authentication:failure"
    ⟨0, false⟩ ⟨1, false⟩ [] rfl rfl

/-- The dispatch loop leaves the registry unchanged when every invoked
handler performs no registry operation. -/
theorem dispatch_fold_state_pure (sem : HId → Effect) (ls : List Listener)
    (r : Registry) (a : List HId)
    (hpure : ∀ l ∈ ls, (sem l.handler).ops = []) :
    (ls.foldl (dispatchStep sem) (r, a)).1 = r := by
  induction ls generalizing r a with
  | nil => rfl
  | cons l rest ih =>
    simp only [List.foldl_cons, dispatchStep_eq,
      hpure l (List.mem_cons_self _ _), List.foldl_nil]
    exact ih _ _ (fun l' hl' => hpure l' (List.mem_cons_of_mem _ hl'))

/-- `emit` on a kind whose entry is the empty list returns early,
leaving the registry untouched. -/
theorem emit_on_empty (sem : HId → Effect) (r : Registry) (k : Kind)
    (hl : lookupK r k = some []) : emit sem r k = (r, []) := by
  unfold emit
  rw [hl]
  simp

/-- `emit` over a non-empty all-`once` listener list with pure handlers
replaces the kind's entry with the empty list (it does not delete the
registry entry). -/
theorem emit_state_all_once_pure (sem : HId → Effect) (r : Registry)
    (k : Kind) (ls : List Listener)
    (hl : lookupK r k = some ls) (hne : ls ≠ [])
    (honce : ∀ l ∈ ls, l.once = true)
    (hpure : ∀ l ∈ ls, (sem l.handler).ops = []) :
    (emit sem r k).1 = setK r k [] := by
  unfold emit
  rw [hl]
  have hz : ¬(ls.length = 0) := fun hh => hne (List.length_eq_zero.mp hh)
  simp only [hz, if_false]
  have hfil : ls.filter (fun l => !l.once) = [] := by
    rw [List.filter_eq_nil_iff]
    intro a ha
    simp [honce a ha]
  rw [hfil]
  exact dispatch_fold_state_pure sem ls _ [] hpure

/-- Claim C10.  After an `emit` whose registered listeners for the kind
were all once-handlers (with pure effects), `listenerCount` for the
kind is 0 but `eventNames()` still includes the kind — `emit` replaces
the entry with an empty list rather than deleting it; a subsequent `off`
for the kind (leaving the list empty) deletes the entry, as does
`removeAllListeners(kind)`; a further `emit` on the empty entry returns
early and leaves the registry untouched, and `on` keeps the kind
registered. -/
theorem C10_empty_entry_after_once_emit (sem : HId → Effect) (r : Registry)
    (k : Kind) (ls : List Listener) (g : HId)
    (hl : lookupK r k = some ls) (hne : ls ≠ [])
    (honce : ∀ l ∈ ls, l.once = true)
    (hpure : ∀ l ∈ ls, (sem l.handler).ops = []) :
    (lookupK (emit sem r k).1 k = some [] ∧
     listenerCount (emit sem r k).1 k = 0 ∧
     k ∈ eventNames (emit sem r k).1) ∧
    (lookupK (emOff (emit sem r k).1 k g) k = none ∧
     k ∉ eventNames (emOff (emit sem r k).1 k g) ∧
     k ∉ eventNames (emRemoveAll (emit sem r k).1 (some k)) ∧
     emit sem (emit sem r k).1 k = ((emit sem r k).1, []) ∧
     k ∈ eventNames (emOn (emit sem r k).1 k g)) := by
  have hst := emit_state_all_once_pure sem r k ls hl hne honce hpure
  have hlk : lookupK (emit sem r k).1 k = some [] := by
    rw [hst]
    exact lookupK_setK_self r k []
  have hoff : emOff (emit sem r k).1 k g = deleteK (emit sem r k).1 k := by
    unfold emOff
    rw [hlk]
    rfl
  refine ⟨⟨hlk, ?_, ?_⟩, ⟨?_, ?_, ?_, ?_, ?_⟩⟩
  · unfold listenerCount
    rw [hlk]
    rfl
  · rw [mem_eventNames_iff, hlk]
    rfl
  · rw [hoff]
    exact lookupK_deleteK_self _ k
  · rw [mem_eventNames_iff, hoff, lookupK_deleteK_self _ k]
    simp
  · rw [mem_eventNames_iff]
    unfold emRemoveAll
    rw [lookupK_deleteK_self _ k]
    simp
  · exact emit_on_empty sem _ k hlk
  · rw [mem_eventNames_iff]
    unfold emOn
    rw [lookupK_setK_self]
    rfl

/-- Claim C10, witness: two once-handlers for the kind, pure effects;
all eight consequences at the concrete registry. -/
theorem C10_witness :
    (lookupK (emit semPure regAllOnce "initialization:complete").1
        "initialization:complete" = some [] ∧
     listenerCount (emit semPure regAllOnce "initialization:complete").1
        "initialization:complete" = 0 ∧
     "initialization:complete" ∈
        eventNames (emit semPure regAllOnce "initialization:complete").1) ∧
    (lookupK (emOff (emit semPure regAllOnce "initialization:complete").1
        "initialization:complete" 7) "initialization:complete" = none ∧
     "initialization:complete" ∉
        eventNames (emOff (emit semPure regAllOnce "initialization:complete").1
          "initialization:complete" 7) ∧
     "initialization:complete" ∉
        eventNames (emRemoveAll (emit semPure regAllOnce "initialization:complete").1
          (some "initialization:complete")) ∧
     emit semPure (emit semPure regAllOnce "initialization:complete").1
        "initialization:complete" =
       ((emit semPure regAllOnce "initialization:complete").1, []) ∧
     "initialization:complete" ∈
        eventNames (emOn (emit semPure regAllOnce "initialization:complete").1
          "initialization:complete" 7)) :=
  C10_empty_entry_after_once_emit semPure regAllOnce "initialization:complete"
    [⟨0, true⟩, ⟨1, true⟩] 7 rfl (by decide) (by decide) (by decide)

end TouchIDSpec
